import Mathlib

/-!
Verification of the Render deployment-status GitHub Action.

The development embeds the commit-status variant of the action's `run`
function (the variant that reads the `max-attempts` and `interval` inputs
declared in `action.yml`) together with its `parseCommentBody` helper.
Pure computations are embedded as Lean functions; the effectful `run`
body is embedded as a function from an environment (the inbound comment,
the provider's responses) to the ordered list of observable actions it
performs (HTTP fetches, commit-status writes, output assignments, timer
starts) plus how the invocation ends.

The two regular expressions in `parseCommentBody` are embedded by a small
matcher with JavaScript `String.prototype.match` semantics for these
patterns: leftmost match wins, `+` is greedy with backtracking, and the
`i` flag makes the literal portions and character classes
case-insensitive while captures preserve the original text.  The
unescaped dots in the patterns (e.g. in `.onrender.com`) match any
character except a line terminator, as they do in the source.
-/

namespace RenderAction

/-- Lowercase a single ASCII character, the identity on everything else.
Models the effect of the `i` regex flag on comparisons. -/
def lowerChar (c : Char) : Char :=
  if 'A' ≤ c ∧ c ≤ 'Z' then Char.ofNat (c.toNat + 32) else c

/-- The character class `[0-9a-z-]` under the `i` flag (so uppercase
letters are accepted as well). Both regexes in the source use this class. -/
def classChar (c : Char) : Bool :=
  decide ('0' ≤ c ∧ c ≤ '9') || decide ('a' ≤ lowerChar c ∧ lowerChar c ≤ 'z')
    || decide (c = '-')

/-- The characters the unescaped regex `.` matches (without the `s`
flag): anything but a line terminator. -/
def dotChar (c : Char) : Bool :=
  !(decide (c = '\n') || decide (c = '\r') || decide (c = '\u2028')
    || decide (c = '\u2029'))

/-- Match a literal pattern (given lowercased) case-insensitively at the
head of the input; return the rest of the input on success. -/
def stripCI : List Char → List Char → Option (List Char)
  | [], l => some l
  | _ :: _, [] => none
  | p :: ps, c :: cs => if lowerChar c = p then stripCI ps cs else none

/-- Greedy `+` matching over a character class, with backtracking: having
consumed `acc.reverse` so far, prefer consuming further class characters
and fall back to the continuation `k run rest` on failure.  `k` receives
the (nonempty) consumed run in input order and the remaining input. -/
def matchPlusAux {α : Type} (cls : Char → Bool)
    (k : List Char → List Char → Option α) :
    List Char → List Char → Option α
  | acc, [] => k acc.reverse []
  | acc, c :: rest =>
    if cls c then
      match matchPlusAux cls k (c :: acc) rest with
      | some x => some x
      | none => k acc.reverse (c :: rest)
    else k acc.reverse (c :: rest)

/-- `cls+` followed by continuation `k`, greedy with backtracking;
fails if no class character is available at all. -/
def matchPlus {α : Type} (cls : Char → Bool)
    (k : List Char → List Char → Option α) : List Char → Option α
  | [] => none
  | c :: rest => if cls c then matchPlusAux cls k [c] rest else none

/-- Continuation for the server-URL regex after `[0-9a-z-]+`: the suffix
`.onrender.com` where each unescaped `.` matches any character.  `c1` is
the original text matched by the literal `https://api-pr-`; the returned
capture is the whole group in original case. -/
def serverTail (c1 : List Char) (run rest : List Char) : Option (List Char) :=
  match rest with
  | [] => none
  | d1 :: rest1 =>
    if dotChar d1 then
      match stripCI "onrender".toList rest1 with
      | none => none
      | some rest2 =>
        match rest2 with
        | [] => none
        | d2 :: rest3 =>
          if dotChar d2 then
            match stripCI "com".toList rest3 with
            | none => none
            | some _ =>
              some (c1 ++ run ++ [d1] ++ rest1.take 8 ++ [d2] ++ rest3.take 3)
          else none
    else none

/-- Attempt the regex
`/PR Server URL is (?<serverUrl>https:\/\/api-pr-[0-9a-z-]+.onrender.com)/i`
anchored at the given position; returns the `serverUrl` capture. -/
def matchServerAt (l : List Char) : Option (List Char) :=
  match stripCI "pr server url is ".toList l with
  | none => none
  | some r1 =>
    match stripCI "https://api-pr-".toList r1 with
    | none => none
    | some r2 => matchPlus classChar (serverTail (r1.take 15)) r2

/-- Leftmost match of the server-URL regex over the whole input, as
`String.prototype.match` does for a regex without the `g` flag. -/
def findServerUrl (l : List Char) : Option (List Char) :=
  match matchServerAt l with
  | some r => some r
  | none =>
    match l with
    | [] => none
    | _ :: t => findServerUrl t

/-- Attempt the regex
`/https:\/\/dashboard.render.com\/(?<serviceName>[a-z0-9-]+)\/(?<serviceId>[a-z0-9-]+)/i`
anchored at the given position; returns the two captures. -/
def matchDashAt (l : List Char) : Option (List Char × List Char) :=
  match stripCI "https://dashboard".toList l with
  | none => none
  | some r1 =>
    match r1 with
    | [] => none
    | d1 :: r2 =>
      if dotChar d1 then
        match stripCI "render".toList r2 with
        | none => none
        | some r3 =>
          match r3 with
          | [] => none
          | d2 :: r4 =>
            if dotChar d2 then
              match stripCI "com/".toList r4 with
              | none => none
              | some r5 =>
                matchPlus classChar (fun run rest =>
                  match rest with
                  | '/' :: r6 =>
                    matchPlus classChar (fun run2 _ => some (run, run2)) r6
                  | _ => none) r5
            else none
      else none

/-- Leftmost match of the dashboard-URL regex over the whole input. -/
def findDash (l : List Char) : Option (List Char × List Char) :=
  match matchDashAt l with
  | some r => some r
  | none =>
    match l with
    | [] => none
    | _ :: t => findDash t

/-- The structured result of `parseCommentBody`
(`{serverUrl, serviceName, serviceId, dashboardUrl}` in the source). -/
structure ParsedComment where
  serverUrl : String
  serviceName : String
  serviceId : String
  dashboardUrl : String
  deriving DecidableEq, Repr

/-- `parseCommentBody` from the source: extract the server URL, then match
the dashboard regex once for the service name and once more for the
service id (the source runs the same regex twice), failing with the
source's three distinct error messages; on success reconstruct the
dashboard URL from the two captures. -/
def parseCommentBody (commentBody : String) : Except String ParsedComment :=
  let l := commentBody.toList
  match findServerUrl l with
  | none => .error "No server URL found"
  | some su =>
    match findDash l with
    | none => .error "No service name found"
    | some nm =>
      match findDash l with
      | none => .error "No service ID found"
      | some idp =>
        let serviceName := String.mk nm.1
        let serviceId := String.mk idp.2
        .ok { serverUrl := String.mk su
              serviceName := serviceName
              serviceId := serviceId
              dashboardUrl :=
                "https://dashboard.render.com/" ++ serviceName ++ "/" ++ serviceId }

/-- Case-sensitive substring test, modelling
`String.prototype.includes` on character lists. -/
def containsSub (needle : List Char) : List Char → Bool
  | [] => needle.isEmpty
  | c :: t => needle.isPrefixOf (c :: t) || containsSub needle t

/-- The marker phrase the action requires before attempting any parse. -/
def markerLits : List Char :=
  "Your [Render](https://render.com) PR Server URL is".toList

/-- Provider deploy status.  The source's `Deploy` interface declares
`'live' | 'deactivated' | 'build_failed'`, but the poll loop stays pending
on any other value the API returns; `inProgress` stands for all such
non-terminal values. -/
inductive RenderStatus where
  | live
  | deactivated
  | build_failed
  | inProgress
  deriving DecidableEq, Repr

/-- The fields of a provider deploy that the action reads: its id, the
status snapshot carried by the response, and `createdAt` as the epoch
milliseconds produced by `new Date(...).getTime()`. -/
structure Deploy where
  id : String
  status : RenderStatus
  createdAt : Nat
  deriving DecidableEq, Repr

instance : Inhabited Deploy := ⟨{ id := "", status := .inProgress, createdAt := 0 }⟩

/-- One element of the deploy-listing response (`{deploy, cursor}`; the
cursor is never read). -/
structure DataEntry where
  deploy : Deploy
  deriving DecidableEq, Repr

instance : Inhabited DataEntry := ⟨⟨default⟩⟩

/-- The descending-`createdAt` comparison induced by the source's
comparator `(a, b) => new Date(b...).getTime() - new Date(a...).getTime()`:
`a` may precede `b` exactly when `b`'s creation time is no later. -/
def deployLater (a b : DataEntry) : Prop :=
  b.deploy.createdAt ≤ a.deploy.createdAt

instance : DecidableRel deployLater := fun _ _ => Nat.decLe _ _

instance : IsTotal DataEntry deployLater :=
  ⟨fun a b => (Nat.le_total b.deploy.createdAt a.deploy.createdAt).imp id id⟩

instance : IsTrans DataEntry deployLater :=
  ⟨fun _ _ _ h1 h2 => Nat.le_trans h2 h1⟩

/-- `data.sort(comparator)[0].deploy` from the source: sort the fetched
window in descending creation order and take the first element.  (The
source indexes only after checking the list is nonempty; `headI` returns
the default deploy on `[]`, a case `run` never reaches.) -/
def selectDeploy (l : List DataEntry) : Deploy :=
  ((List.insertionSort deployLater l).headI).deploy

/-- Commit-status states used by this variant
(`'error' | 'failure' | 'pending' | 'success'`). -/
inductive GhState where
  | pending
  | success
  | failure
  | error
  deriving DecidableEq, Repr

/-- One `createCommitStatus` call: the fields the action chooses per call.
(`sha` and the repository are the same constants on every call and are
omitted.)  `description := none` models passing `undefined`. -/
structure CommitStatusCall where
  state : GhState
  target_url : String
  description : Option String
  context : String
  deriving DecidableEq, Repr

/-- The observable actions `run` performs, in order.  `startWait` records
that `wait(ms)` was invoked; an execution that awaited the returned
promise would additionally contain a matching `waitDone` before the next
action, but the source discards the promise, so `run` never emits
`waitDone`. -/
inductive Action where
  | fetchDeploys
  | fetchStatus (idx : Nat) (deployId : String)
  | createStatus (c : CommitStatusCall)
  | setOutput (key val : String)
  | startWait (ms : Nat)
  | waitDone (ms : Nat)
  deriving DecidableEq, Repr

/-- How the invocation ends: a normal return, the top-level catch calling
`core.setFailed(msg)`, or exhaustion of the embedding's fuel parameter
(never reached when the fuel is at least `maxAttempts + 2`, see
`pollLoop_fuel_sufficient`). -/
inductive RunResult where
  | normal
  | failed (msg : String)
  | fuelOut
  deriving DecidableEq, Repr

/-- The three consecutive `if` statements that map the fetched provider
status onto the loop's `status` variable (which holds `cur` on entry). -/
def stepState (cur : GhState) (s : RenderStatus) : GhState :=
  let c1 := if s = .live then .success else cur
  let c2 := if s = .build_failed then .failure else c1
  if s = .deactivated then .error else c2

/-- The `while (status === 'pending')` loop of the commit-status variant.
`statusAt n` is the provider's response to the `n`-th in-loop fetch; each
continuing iteration increments `attempts`, so iteration `n` runs with
`attempts = n`.  `snap` is the deploy selected from the initial listing —
the loop body reads its stale `snap.status` when choosing `target_url`.
`fuel` only bounds the recursion; the budget check exits the loop before
fuel `m + 2` can run out. -/
def pollLoop (statusAt : Nat → RenderStatus) (snap : Deploy)
    (su du ctx : String) (m i : Nat) :
    Nat → Nat → List Action × RunResult
  | 0, _ => ([], .fuelOut)
  | fuel + 1, attempts =>
    if attempts > m then
      ([.createStatus ⟨.failure, du, some "Exceeded max number of attempts", ctx⟩],
       .normal)
    else
      let s := statusAt attempts
      let st := stepState .pending s
      let rep : CommitStatusCall :=
        ⟨st, if snap.status = .live then su else du,
         if s = .build_failed then some "Build failed" else none, ctx⟩
      if st = .pending then
        let out := pollLoop statusAt snap su du ctx m i fuel (attempts + 1)
        (.fetchStatus attempts snap.id :: .createStatus rep :: .startWait i :: out.1,
         out.2)
      else if st = .success then
        ([.fetchStatus attempts snap.id, .createStatus rep,
          .createStatus ⟨.success, du, some "Deploy succeeded", ctx⟩,
          .setOutput "success" "success"], .normal)
      else if st = .failure then
        ([.fetchStatus attempts snap.id, .createStatus rep,
          .createStatus ⟨.failure, du, some "Deploy failed", ctx⟩,
          .setOutput "failure" "failure"], .normal)
      else
        ([.fetchStatus attempts snap.id, .createStatus rep], .normal)

/-- The invocation's environment: the inbound comment, the provider's
responses, the two optional numeric inputs (`none` models an empty
`core.getInput` result, which falls back to the defaults 100 / 10000),
and the id the platform assigns to the initial commit status, modelled as
the string `commitStatus.id.toString()` yields. -/
structure Env where
  commentBody : Option String
  deploys : List DataEntry
  statusAt : Nat → RenderStatus
  maxAttemptsInput : Option Nat
  intervalInput : Option Nat
  commitStatusId : String

/-- The `run` function of the commit-status variant, as the ordered list
of observable actions plus the way the invocation ends.  Thrown errors
are the ones the top-level catch converts into `core.setFailed`. -/
def run (env : Env) : List Action × RunResult :=
  match env.commentBody with
  | none => ([], .failed "No comment body found")
  | some body =>
    if containsSub markerLits body.toList then
      match parseCommentBody body with
      | .error e => ([], .failed e)
      | .ok pc =>
        let outs : List Action :=
          [.setOutput "server-url" pc.serverUrl,
           .setOutput "service-name" pc.serviceName,
           .setOutput "service-id" pc.serviceId,
           .setOutput "dashboard-url" pc.dashboardUrl,
           .fetchDeploys]
        if env.deploys.isEmpty then (outs, .failed "No deploys found")
        else
          let deploy := selectDeploy env.deploys
          let ctx := "Render – " ++ pc.serviceName ++ " – " ++ deploy.id
          let pre := outs ++
            [.createStatus ⟨.pending, pc.dashboardUrl,
               some "Preview deployment on Render", ctx⟩,
             .setOutput "status-id" env.commitStatusId]
          let m := env.maxAttemptsInput.getD 100
          let i := env.intervalInput.getD 10000
          let out := pollLoop env.statusAt deploy pc.serverUrl pc.dashboardUrl ctx
            m i (m + 2) 0
          (pre ++ out.1, out.2)
    else ([], .normal)

/-- The in-loop `environment_url` choice of the deployment-status variant
in `src/main.ts`: `deploy.status === 'live' ? serverUrl : undefined`,
again reading the stale snapshot status. -/
def environmentUrlDeployVariant (snapStatus : RenderStatus) (serverUrl : String) :
    Option String :=
  if snapStatus = .live then some serverUrl else none

/-- Is the action a provider status fetch? -/
def isFetch : Action → Bool
  | .fetchStatus _ _ => true
  | _ => false

/-- Is the action the completion of a wait? -/
def isWaitDone : Action → Bool
  | .waitDone _ => true
  | _ => false

/-- Does the action set one of the terminal output keys? -/
def isTerminalOut : Action → Bool
  | .setOutput k _ => decide (k = "success" ∨ k = "failure")
  | _ => false

/-- The commit-status record written by the action, if any. -/
def getReport : Action → Option CommitStatusCall
  | .createStatus c => some c
  | _ => none

/-- Is the action a commit-status write with the given state and
description? -/
def isReport (st : GhState) (d : Option String) : Action → Bool
  | .createStatus c => decide (c.state = st ∧ c.description = d)
  | _ => false

/-- Number of provider status fetches in a trace. -/
def countFetches (tr : List Action) : Nat := tr.countP isFetch

/-! ### Concrete scenario data shared by several theorems -/

/-- A well-formed provider comment of the documented shape. -/
def sampleComment : String :=
  "Your [Render](https://render.com) PR Server URL is https://api-pr-12-abcd.onrender.com. Follow its progress at https://dashboard.render.com/web/srv-abc123."

/-- The server URL the sample comment carries. -/
def sampleServerUrl : String := "https://api-pr-12-abcd.onrender.com"

/-- The dashboard URL reconstructed from the sample comment. -/
def sampleDashboardUrl : String := "https://dashboard.render.com/web/srv-abc123"

/-- The identity `parseCommentBody` extracts from `sampleComment`. -/
def samplePC : ParsedComment :=
  { serverUrl := sampleServerUrl
    serviceName := "web"
    serviceId := "srv-abc123"
    dashboardUrl := sampleDashboardUrl }

/-- The commit-status context label `run` builds for the sample data. -/
def ctxLabel : String := "Render – web – dep-1"

/-- The deploy returned by the listing call in the concrete scenarios; its
snapshot status is an in-progress value, as for a deploy that is still
building when the comment arrives. -/
def snapDeploy : Deploy := { id := "dep-1", status := .inProgress, createdAt := 1000 }

/-- A provider that never leaves the pending state. -/
def pendStatus : Nat → RenderStatus := fun _ => .inProgress

/-- The actions `run` performs before entering the poll loop in the
concrete scenarios below. -/
def preTrace : List Action :=
  [.setOutput "server-url" sampleServerUrl,
   .setOutput "service-name" "web",
   .setOutput "service-id" "srv-abc123",
   .setOutput "dashboard-url" sampleDashboardUrl,
   .fetchDeploys,
   .createStatus ⟨.pending, sampleDashboardUrl,
     some "Preview deployment on Render", ctxLabel⟩,
   .setOutput "status-id" "7"]

/-- Environment whose provider never leaves pending, with explicit
`max-attempts` and `interval` inputs. -/
def pendEnv (m i : Nat) : Env :=
  { commentBody := some sampleComment
    deploys := [⟨snapDeploy⟩]
    statusAt := pendStatus
    maxAttemptsInput := some m
    intervalInput := some i
    commitStatusId := "7" }

/-- Environment whose provider answers pending, pending, then live, with
the default inputs. -/
def env3 : Env :=
  { commentBody := some sampleComment
    deploys := [⟨snapDeploy⟩]
    statusAt := fun n => if n < 2 then .inProgress else .live
    maxAttemptsInput := none
    intervalInput := none
    commitStatusId := "7" }

/-- Environment whose provider reports `deactivated` at once, with the
default inputs. -/
def envD : Env :=
  { commentBody := some sampleComment
    deploys := [⟨snapDeploy⟩]
    statusAt := fun _ => .deactivated
    maxAttemptsInput := none
    intervalInput := none
    commitStatusId := "7" }

/-- The poll-loop trace of the `env3` scenario (provider sequence
pending, pending, live), with `run`'s fuel `100 + 2`. -/
def loop3Trace : List Action :=
  (pollLoop env3.statusAt snapDeploy sampleServerUrl sampleDashboardUrl ctxLabel
    100 10000 102 0).1

/-- An environment whose comment does not carry the marker phrase. -/
def envSkip : Env :=
  { commentBody := some "hello"
    deploys := []
    statusAt := fun _ => .inProgress
    maxAttemptsInput := none
    intervalInput := none
    commitStatusId := "0" }

/-- A comment with the marker phrase but no well-formed server URL. -/
def bodyNoServer : String :=
  "Your [Render](https://render.com) PR Server URL is nothing"

/-- A comment with the marker phrase and a server URL but no dashboard
URL. -/
def bodyNoDash : String :=
  "Your [Render](https://render.com) PR Server URL is https://api-pr-9-x.onrender.com."

/-- An unsorted two-entry deploy listing: the first entry is older. -/
def unsortedListing : List DataEntry :=
  [⟨{ id := "old", status := .live, createdAt := 5 }⟩,
   ⟨{ id := "new", status := .inProgress, createdAt := 9 }⟩]

/-! ### General lemmas about the poll loop -/

/-- The fuel parameter of `pollLoop` is only a totality device: along the
loop invariant `attempts ≤ maxAttempts + 1`, fuel covering the remaining
budget is never exhausted, so `run`'s choice of `maxAttempts + 2` never
produces `fuelOut`. -/
theorem pollLoop_fuel_sufficient (statusAt : Nat → RenderStatus) (snap : Deploy)
    (su du ctx : String) (m i : Nat) :
    ∀ fuel a, a ≤ m + 1 → m + 2 ≤ a + fuel →
      (pollLoop statusAt snap su du ctx m i fuel a).2 ≠ .fuelOut := by
  intro fuel
  induction fuel with
  | zero => intro a ha hf; omega
  | succ f ih =>
    intro a ha hf
    by_cases hgt : a > m
    · simp [pollLoop, hgt]
    · have hrec := ih (a + 1) (by omega) (by omega)
      rcases hst : statusAt a with _ | _ | _ | _ <;>
          simp [pollLoop, hgt, hst, stepState]
      exact hrec

/-- Behaviour of the loop when the provider never leaves pending: it ends
normally, performs one fetch per remaining budgeted attempt, and its last
action is the forced budget-failure report. -/
theorem pollLoop_pending_spec (snap : Deploy) (su du ctx : String) (m i : Nat) :
    ∀ fuel a, a + fuel = m + 2 → a ≤ m + 1 →
      (pollLoop pendStatus snap su du ctx m i fuel a).2 = .normal
      ∧ countFetches (pollLoop pendStatus snap su du ctx m i fuel a).1 = m + 1 - a
      ∧ (pollLoop pendStatus snap su du ctx m i fuel a).1.getLast? =
          some (.createStatus ⟨.failure, du, some "Exceeded max number of attempts", ctx⟩) := by
  intro fuel
  induction fuel with
  | zero => intro a h ha; omega
  | succ f ih =>
    intro a h ha
    by_cases hgt : a > m
    · have haeq : m + 1 - a = 0 := by omega
      rw [haeq]
      simp only [pollLoop, if_pos hgt]
      exact ⟨trivial, rfl, rfl⟩
    · have hrec := ih (a + 1) (by omega) (by omega)
      have hstep : pollLoop pendStatus snap su du ctx m i (f + 1) a =
          (Action.fetchStatus a snap.id ::
             Action.createStatus ⟨.pending, if snap.status = .live then su else du,
               none, ctx⟩ ::
             Action.startWait i ::
             (pollLoop pendStatus snap su du ctx m i f (a + 1)).1,
           (pollLoop pendStatus snap su du ctx m i f (a + 1)).2) := by
        simp [pollLoop, hgt, pendStatus, stepState]
      rw [hstep]
      have hne : (pollLoop pendStatus snap su du ctx m i f (a + 1)).1 ≠ [] := by
        intro hnil
        rw [hnil] at hrec
        exact Option.noConfusion hrec.2.2
      refine ⟨hrec.1, ?_, ?_⟩
      · simp [countFetches, List.countP_cons, isFetch] at hrec ⊢
        omega
      · have hsplit :
            (Action.fetchStatus a snap.id ::
               Action.createStatus ⟨.pending, if snap.status = .live then su else du,
                 none, ctx⟩ ::
               Action.startWait i ::
               (pollLoop pendStatus snap su du ctx m i f (a + 1)).1) =
            [Action.fetchStatus a snap.id,
             Action.createStatus ⟨.pending, if snap.status = .live then su else du,
               none, ctx⟩,
             Action.startWait i] ++
              (pollLoop pendStatus snap su du ctx m i f (a + 1)).1 := rfl
        rw [hsplit, List.getLast?_append_of_ne_nil _ hne]
        exact hrec.2.2

/-- `run` on the never-pending environment: the pre-loop actions followed
by the poll loop, with the configured inputs and fuel `m + 2`. -/
theorem run_pendEnv (m i : Nat) :
    run (pendEnv m i) =
      (preTrace ++ (pollLoop pendStatus snapDeploy sampleServerUrl sampleDashboardUrl
          ctxLabel m i (m + 2) 0).1,
       (pollLoop pendStatus snapDeploy sampleServerUrl sampleDashboardUrl
          ctxLabel m i (m + 2) 0).2) := rfl

/-! ### Theorems for the claims -/

/-- C4: `attempts` starts at 0 and increments once per non-terminal
iteration, and the budget check `attempts > maxAttempts` is strict, so
with a provider that never leaves pending exactly `maxAttempts + 1`
status fetches occur, after which the forced-failure report is the final
action of the invocation. -/
theorem attempt_budget_off_by_one (m i : Nat) :
    countFetches (run (pendEnv m i)).1 = m + 1
    ∧ (run (pendEnv m i)).1.getLast? =
        some (.createStatus ⟨.failure, sampleDashboardUrl,
          some "Exceeded max number of attempts", ctxLabel⟩) := by
  have hs := pollLoop_pending_spec snapDeploy sampleServerUrl sampleDashboardUrl
    ctxLabel m i (m + 2) 0 (by omega) (by omega)
  have hne : (pollLoop pendStatus snapDeploy sampleServerUrl sampleDashboardUrl
      ctxLabel m i (m + 2) 0).1 ≠ [] := by
    intro hnil
    rw [hnil] at hs
    exact Option.noConfusion hs.2.2
  rw [run_pendEnv]
  constructor
  · have h1 := hs.2.1
    simp only [countFetches] at h1 ⊢
    rw [List.countP_append, show List.countP isFetch preTrace = 0 from rfl, h1]
    omega
  · rw [List.getLast?_append_of_ne_nil _ hne]
    exact hs.2.2

/-- C5: when the provider never leaves pending and the attempt budget is
exhausted, the invocation writes a `failure` record with the fixed
"Exceeded max number of attempts" description as its final action (so no
further polling), and then ends normally rather than failing. -/
theorem budget_exhaustion_is_handled (m i : Nat) :
    (run (pendEnv m i)).2 = .normal
    ∧ (run (pendEnv m i)).1.getLast? =
        some (.createStatus ⟨.failure, sampleDashboardUrl,
          some "Exceeded max number of attempts", ctxLabel⟩)
    ∧ ∀ msg, (run (pendEnv m i)).2 ≠ .failed msg := by
  have hs := pollLoop_pending_spec snapDeploy sampleServerUrl sampleDashboardUrl
    ctxLabel m i (m + 2) 0 (by omega) (by omega)
  have hne : (pollLoop pendStatus snapDeploy sampleServerUrl sampleDashboardUrl
      ctxLabel m i (m + 2) 0).1 ≠ [] := by
    intro hnil
    rw [hnil] at hs
    exact Option.noConfusion hs.2.2
  rw [run_pendEnv]
  refine ⟨hs.1, ?_, ?_⟩
  · rw [List.getLast?_append_of_ne_nil _ hne]
    exact hs.2.2
  · intro msg h
    rw [hs.1] at h
    exact RunResult.noConfusion h

/-- C3: for the provider sequence pending, pending, live, the poll loop
fetches three times, writes exactly one pending heartbeat per
intermediate step, exactly one in-loop success update, and exactly one
confirming success report with the terminal description; the confirming
report is followed only by setting the `success` output (so no polling
follows the terminal report) and the invocation returns normally. -/
theorem poll_sequence_pending_pending_live :
    loop3Trace =
      [.fetchStatus 0 "dep-1",
       .createStatus ⟨.pending, sampleDashboardUrl, none, ctxLabel⟩,
       .startWait 10000,
       .fetchStatus 1 "dep-1",
       .createStatus ⟨.pending, sampleDashboardUrl, none, ctxLabel⟩,
       .startWait 10000,
       .fetchStatus 2 "dep-1",
       .createStatus ⟨.success, sampleDashboardUrl, none, ctxLabel⟩,
       .createStatus ⟨.success, sampleDashboardUrl, some "Deploy succeeded", ctxLabel⟩,
       .setOutput "success" "success"]
    ∧ (run env3).1 = preTrace ++ loop3Trace
    ∧ (run env3).2 = .normal
    ∧ loop3Trace.countP (isReport .pending none) = 2
    ∧ loop3Trace.countP (isReport .success none) = 1
    ∧ loop3Trace.countP (isReport .success (some "Deploy succeeded")) = 1
    ∧ countFetches loop3Trace = 3
    ∧ loop3Trace.getLast? = some (.setOutput "success" "success")
    ∧ loop3Trace.dropLast.getLast? =
        some (.createStatus ⟨.success, sampleDashboardUrl,
          some "Deploy succeeded", ctxLabel⟩) := by
  decide

/-- C2: in the pending, pending, live run the loop starts the interval
timer (`wait(10000)` with the default input) after each pending
iteration, but the very next observable action is already the next status
fetch, and no wait-completion ever appears in the trace: the source
discards the promise `wait` returns instead of awaiting it, so the next
fetch is not delayed. -/
theorem wait_started_but_never_awaited :
    loop3Trace.get? 2 = some (.startWait 10000)
    ∧ loop3Trace.get? 3 = some (.fetchStatus 1 "dep-1")
    ∧ loop3Trace.get? 5 = some (.startWait 10000)
    ∧ loop3Trace.get? 6 = some (.fetchStatus 2 "dep-1")
    ∧ (run env3).1.countP isWaitDone = 0 := by
  decide

/-- One step of the loop when the provider reports `deactivated` within
budget: the iteration fetches, writes the `error` record, and the loop
ends normally with no further action. -/
theorem pollLoop_deactivated_step (snap : Deploy) (su du ctx : String)
    (m i f a : Nat) (hgt : ¬ a > m) :
    pollLoop (fun _ => .deactivated) snap su du ctx m i (f + 1) a =
      ([.fetchStatus a snap.id,
        .createStatus ⟨.error, if snap.status = .live then su else du, none, ctx⟩],
       .normal) := by
  simp [pollLoop, hgt, stepState]

/-- C10: when the provider reports `deactivated`, the outcome becomes
`error`, the in-loop report for that iteration is written, and the loop
exits with no confirming terminal report, no terminal output key, and a
normal end of the invocation. -/
theorem deactivated_exits_loop_silently (m i : Nat) :
    (pollLoop (fun _ => .deactivated) snapDeploy sampleServerUrl sampleDashboardUrl
        ctxLabel m i (m + 2) 0).1 =
      [.fetchStatus 0 "dep-1",
       .createStatus ⟨.error, sampleDashboardUrl, none, ctxLabel⟩]
    ∧ (pollLoop (fun _ => .deactivated) snapDeploy sampleServerUrl sampleDashboardUrl
        ctxLabel m i (m + 2) 0).2 = .normal
    ∧ (run envD).1.getLast? =
        some (.createStatus ⟨.error, sampleDashboardUrl, none, ctxLabel⟩)
    ∧ (run envD).1.countP isTerminalOut = 0
    ∧ (run envD).1.countP (isReport .success (some "Deploy succeeded")) = 0
    ∧ (run envD).1.countP (isReport .failure (some "Deploy failed")) = 0
    ∧ (run envD).2 = .normal := by
  have h0 : ¬ (0 > m) := by omega
  have hstep := pollLoop_deactivated_step snapDeploy sampleServerUrl
    sampleDashboardUrl ctxLabel m i (m + 1) 0 h0
  exact ⟨congrArg Prod.fst hstep, congrArg Prod.snd hstep,
    by decide, by decide, by decide, by decide, by decide⟩

/-- C1 counterexample: in the `env3` scenario the provider reports `live`
on the third fetch, yet the final record written carries the dashboard
URL, not the server URL extracted from the comment (the loop consults the
stale snapshot status `snapDeploy.status`, and the confirming success
report always passes the dashboard URL); the deployment-status variant's
in-loop `environment_url` is likewise `undefined` rather than the server
URL. -/
theorem final_record_url_counterexample :
    env3.statusAt 2 = .live
    ∧ parseCommentBody sampleComment = .ok samplePC
    ∧ ((run env3).1.filterMap getReport).getLast? =
        some ⟨.success, sampleDashboardUrl, some "Deploy succeeded", ctxLabel⟩
    ∧ sampleDashboardUrl ≠ samplePC.serverUrl
    ∧ environmentUrlDeployVariant snapDeploy.status samplePC.serverUrl = none := by
  refine ⟨by decide, rfl, by decide, by decide, by decide⟩

/-- C1 (corrected): the target URL of every record the poll loop writes is
determined by the snapshot status of the deploy selected from the initial
listing, not by the iteration's outcome: whenever that snapshot status is
not `live`, every record — including the in-loop and confirming records of
an iteration on which the provider reports `live` — carries the dashboard
URL. -/
theorem report_url_follows_snapshot (statusAt : Nat → RenderStatus) (snap : Deploy)
    (su du ctx : String) (m i : Nat) (hsnap : snap.status ≠ .live) :
    ∀ fuel a, ∀ c ∈ (pollLoop statusAt snap su du ctx m i fuel a).1.filterMap getReport,
      c.target_url = du := by
  have hdu : (if snap.status = .live then su else du) = du := if_neg hsnap
  intro fuel
  induction fuel with
  | zero =>
    intro a c hc
    simp [pollLoop] at hc
  | succ f ih =>
    intro a c hc
    by_cases hgt : a > m
    · simp [pollLoop, hgt, getReport] at hc
      rw [hc]
    · rcases hst : statusAt a with _ | _ | _ | _
      · simp [pollLoop, hgt, hst, stepState, getReport, hdu] at hc
        rcases hc with rfl | rfl <;> rfl
      · simp [pollLoop, hgt, hst, stepState, getReport, hdu] at hc
        rw [hc]
      · simp [pollLoop, hgt, hst, stepState, getReport, hdu] at hc
        rcases hc with rfl | rfl <;> rfl
      · simp [pollLoop, hgt, hst, stepState, getReport, hdu] at hc
        rcases hc with rfl | hc
        · rfl
        · exact ih (a + 1) c (by simpa [getReport] using hc)

/-- Witness for `report_url_follows_snapshot` at the `env3` scenario. -/
theorem report_url_follows_snapshot_witness :
    snapDeploy.status ≠ .live
    ∧ ∀ c ∈ (pollLoop env3.statusAt snapDeploy sampleServerUrl sampleDashboardUrl
        ctxLabel 100 10000 102 0).1.filterMap getReport,
        c.target_url = sampleDashboardUrl :=
  ⟨by decide,
   report_url_follows_snapshot env3.statusAt snapDeploy sampleServerUrl
     sampleDashboardUrl ctxLabel 100 10000 (by decide) 102 0⟩

/-- C6: for every nonempty fetched deploy list, whatever its order, the
deploy placed under observation belongs to the list and has the maximum
`createdAt` over the fetched window. -/
theorem selectDeploy_picks_max (l : List DataEntry) (h : l ≠ []) :
    (∃ e ∈ l, selectDeploy l = e.deploy)
    ∧ ∀ e ∈ l, e.deploy.createdAt ≤ (selectDeploy l).createdAt := by
  have hperm := List.perm_insertionSort deployLater l
  have hsorted := List.sorted_insertionSort deployLater l
  rcases hs : List.insertionSort deployLater l with _ | ⟨x, xs⟩
  · rw [hs] at hperm
    exact absurd hperm.symm.eq_nil h
  · rw [hs] at hperm hsorted
    have hsel : selectDeploy l = x.deploy := by
      simp only [selectDeploy, hs, List.headI]
    refine ⟨⟨x, hperm.subset (List.mem_cons_self x xs), hsel⟩, ?_⟩
    intro e he
    rw [hsel]
    rcases List.mem_cons.mp (hperm.mem_iff.mpr he) with rfl | hm
    · exact Nat.le_refl _
    · exact List.rel_of_sorted_cons hsorted e hm

/-- Witness for `selectDeploy_picks_max` on a listing whose newest entry
comes second: the selected deploy is the later-created one, not the first
element. -/
theorem selectDeploy_picks_max_witness :
    unsortedListing ≠ []
    ∧ ((∃ e ∈ unsortedListing, selectDeploy unsortedListing = e.deploy)
       ∧ ∀ e ∈ unsortedListing,
           e.deploy.createdAt ≤ (selectDeploy unsortedListing).createdAt)
    ∧ selectDeploy unsortedListing =
        { id := "new", status := .inProgress, createdAt := 9 }
    ∧ unsortedListing.headI.deploy ≠ selectDeploy unsortedListing :=
  ⟨by decide, selectDeploy_picks_max unsortedListing (by decide),
   by decide, by decide⟩

/-- C7: for every inbound comment that lacks the provider marker phrase,
the invocation ends normally at once, with no parse attempt, no actions
(in particular no outputs set) and no failure signal. -/
theorem missing_marker_skips (env : Env) (body : String)
    (hb : env.commentBody = some body)
    (hm : containsSub markerLits body.toList = false) :
    run env = ([], .normal) := by
  unfold run
  rw [hb]
  have hm2 : containsSub markerLits body.data = false := hm
  simp [hm2]

/-- Witness for `missing_marker_skips` on a comment reading `hello`. -/
theorem missing_marker_skips_witness :
    envSkip.commentBody = some "hello"
    ∧ containsSub markerLits "hello".toList = false
    ∧ run envSkip = ([], .normal) :=
  ⟨rfl, by decide, missing_marker_skips envSkip "hello" rfl (by decide)⟩

/-- C8: for a comment with the marker phrase but malformed URLs, parsing
fails with the specific missing-field message — "No server URL found" when
the server-URL pattern does not match, otherwise "No service name found"
when the dashboard pattern does not match — and no identity is produced. -/
theorem parse_missing_field_errors (body : String)
    (_hm : containsSub markerLits body.toList = true) :
    (findServerUrl body.toList = none →
      parseCommentBody body = .error "No server URL found")
    ∧ (findServerUrl body.toList ≠ none → findDash body.toList = none →
      parseCommentBody body = .error "No service name found")
    ∧ ((findServerUrl body.toList = none ∨ findDash body.toList = none) →
      ∀ pc : ParsedComment, parseCommentBody body ≠ .ok pc) := by
  have hA : findServerUrl body.toList = none →
      parseCommentBody body = .error "No server URL found" := by
    intro h1
    simp only [parseCommentBody]
    rw [h1]
  have hB : ∀ su, findServerUrl body.toList = some su → findDash body.toList = none →
      parseCommentBody body = .error "No service name found" := by
    intro su h1 h2
    simp only [parseCommentBody]
    rw [h1, h2]
  refine ⟨hA, ?_, ?_⟩
  · intro h1 h2
    rcases hsu : findServerUrl body.toList with _ | su
    · exact absurd hsu h1
    · exact hB su hsu h2
  · intro h1 pc hok
    rcases hsu : findServerUrl body.toList with _ | su
    · rw [hA hsu] at hok
      exact Except.noConfusion hok
    · rcases h1 with h1 | h1
      · rw [hsu] at h1
        exact Option.noConfusion h1
      · rw [hB su hsu h1] at hok
        exact Except.noConfusion hok

/-- Witness for `parse_missing_field_errors`: a marker-bearing comment
with no server URL fails with "No server URL found", and one with a
server URL but no dashboard URL fails with "No service name found". -/
theorem parse_missing_field_errors_witness :
    (containsSub markerLits bodyNoServer.toList = true
      ∧ parseCommentBody bodyNoServer = .error "No server URL found")
    ∧ (containsSub markerLits bodyNoDash.toList = true
      ∧ parseCommentBody bodyNoDash = .error "No service name found") :=
  ⟨⟨by decide, (parse_missing_field_errors bodyNoServer (by decide)).1 (by decide)⟩,
   ⟨by decide, (parse_missing_field_errors bodyNoDash (by decide)).2.1
      (by decide) (by decide)⟩⟩

/-- C9: parsing is deterministic — it is a pure function of the comment
text, so two parses of the same text yield the same identity. -/
theorem parse_deterministic (body : String) (pc1 pc2 : ParsedComment)
    (h1 : parseCommentBody body = .ok pc1)
    (h2 : parseCommentBody body = .ok pc2) :
    pc1 = pc2 ∧ parseCommentBody body = parseCommentBody body := by
  rw [h1] at h2
  exact ⟨Except.ok.inj h2, rfl⟩

/-- Witness for `parse_deterministic` at the sample comment. -/
theorem parse_deterministic_witness :
    parseCommentBody sampleComment = .ok samplePC
    ∧ samplePC = samplePC :=
  ⟨rfl, (parse_deterministic sampleComment samplePC samplePC rfl rfl).1 ▸ rfl⟩

end RenderAction
